import Mathlib

/-!
Verification development for the multi-page / multi-context session manager
of the chrome-devtools-mcp repository (`McpContext` / `McpPage`).

The TypeScript source is shallowly embedded:

* JS `Map` objects (insertion-ordered) are embedded as association lists
  (`List (κ × ν)`) with `lookupA` / `setA` / `eraseA` mirroring
  `Map.get` / `Map.set` / `Map.delete`; JS `Set` objects whose only observed
  operation is membership (`seenUniqueIds`) are embedded as lists.
* The string ids `` `${snapshotId}_${idCounter}` `` minted by
  `createTextSnapshot` are embedded as pairs `Uid.mk snapshotId idCounter`;
  the decimal rendering with an underscore separator is injective on such
  pairs, so nothing is lost.  Likewise the unique backend key
  `` `${loaderId}_${backendNodeId}` `` is embedded as the pair `BackendKey`.
* Numeric timeout arithmetic uses `ℚ` (the network multiplier 2.5 is not an
  integer).
* Driver-side effects that the session manager itself reads back
  (page `browserContext()`, `isClosed()`, `setDefaultTimeout`,
  `setDefaultNavigationTimeout`, `emulateFocusedPage`) are tracked in an
  explicit driver-page table; driver effects the manager never reads
  (network/cpu/geolocation emulation primitives, dialog subscriptions,
  DevTools windows) are left untracked.
* Async driver queries (accessibility-tree capture, page enumeration,
  element-handle resolution, DevTools inspection data) are passed in as
  explicit parameters: the embedding is a function of the state *and* of the
  external world's answers.
* A JS `throw` aborts the method; methods that can throw return
  `Except McpError α × State`, the returned state being the mutations
  performed before the throw (JS exceptions do not roll anything back).
-/

namespace Mcp

/-! ## Association-list embedding of JS `Map` -/

def lookupA {α β : Type} [DecidableEq α] : List (α × β) → α → Option β
  | [], _ => none
  | (a, b) :: l, k => if a = k then some b else lookupA l k

/-- `Map.set`: replace the value of an existing key in place, else append. -/
def setA {α β : Type} [DecidableEq α] : List (α × β) → α → β → List (α × β)
  | [], k, v => [(k, v)]
  | (a, b) :: l, k, v => if a = k then (a, v) :: l else (a, b) :: setA l k v

/-- `Map.delete`: remove the entry for a key, if present. -/
def eraseA {α β : Type} [DecidableEq α] : List (α × β) → α → List (α × β)
  | [], _ => []
  | (a, b) :: l, k => if a = k then l else (a, b) :: eraseA l k

theorem lookupA_setA {α β : Type} [DecidableEq α] (l : List (α × β)) (k : α) (v : β) (q : α) :
    lookupA (setA l k v) q = if k = q then some v else lookupA l q := by
  induction l with
  | nil => by_cases h : k = q <;> simp [setA, lookupA, h]
  | cons p l ih =>
    obtain ⟨a, b⟩ := p
    by_cases hak : a = k
    · subst hak
      by_cases haq : a = q <;> simp [setA, lookupA, haq]
    · by_cases haq : a = q
      · subst haq
        simp [setA, lookupA, hak, Ne.symm hak]
      · simp [setA, lookupA, hak, haq, ih]

theorem lookupA_eraseA_ne {α β : Type} [DecidableEq α] (l : List (α × β)) (k q : α)
    (h : k ≠ q) : lookupA (eraseA l k) q = lookupA l q := by
  induction l with
  | nil => rfl
  | cons p l ih =>
    obtain ⟨a, b⟩ := p
    by_cases hak : a = k
    · subst hak
      simp [eraseA, lookupA, h]
    · simp [eraseA, lookupA, hak, ih]

theorem lookupA_filter_key {α β : Type} [DecidableEq α] (l : List (α × β))
    (p : α → Bool) (q : α) :
    lookupA (l.filter fun e => p e.1) q =
      if p q then lookupA l q else none := by
  induction l with
  | nil => simp [lookupA]
  | cons e l ih =>
    obtain ⟨a, b⟩ := e
    by_cases haq : a = q
    · subst haq
      by_cases hp : p a <;> simp [lookupA, hp, ih]
    · by_cases hp : p a <;> simp [lookupA, hp, haq, ih]

theorem lookupA_filter_mem {α β : Type} [DecidableEq α] (l : List (α × β))
    (seen : List α) (q : α) :
    lookupA (l.filter fun e => decide (e.1 ∈ seen)) q =
      if q ∈ seen then lookupA l q else none := by
  rw [lookupA_filter_key l (fun x => decide (x ∈ seen)) q]
  by_cases h : q ∈ seen <;> simp [h]

theorem lookupA_eq_none_of_forall {α β : Type} [DecidableEq α] (l : List (α × β)) (q : α)
    (h : ∀ e ∈ l, e.1 ≠ q) : lookupA l q = none := by
  induction l with
  | nil => rfl
  | cons e l ih =>
    obtain ⟨a, b⟩ := e
    have ha : a ≠ q := h (a, b) (List.mem_cons_self _ _)
    simp only [lookupA, ha, if_false]
    exact ih fun e he => h e (List.mem_cons_of_mem _ he)

theorem mem_of_lookupA_eq_some {α β : Type} [DecidableEq α] (l : List (α × β)) (q : α) (v : β)
    (h : lookupA l q = some v) : (q, v) ∈ l := by
  induction l with
  | nil => simp [lookupA] at h
  | cons e l ih =>
    obtain ⟨a, b⟩ := e
    by_cases haq : a = q
    · subst haq
      simp [lookupA] at h
      subst h
      exact List.mem_cons_self _ _
    · simp only [lookupA, haq, if_false] at h
      exact List.mem_cons_of_mem _ (ih h)

theorem mem_setA {α β : Type} [DecidableEq α] (l : List (α × β)) (k : α) (v : β)
    (e : α × β) (h : e ∈ setA l k v) : e ∈ l ∨ e = (k, v) := by
  induction l with
  | nil =>
    simp only [setA, List.mem_singleton] at h
    exact Or.inr h
  | cons p l ih =>
    obtain ⟨a, b⟩ := p
    by_cases hak : a = k
    · subst hak
      simp [setA] at h
      rcases h with rfl | h
      · exact Or.inr rfl
      · exact Or.inl (List.mem_cons_of_mem _ h)
    · simp only [setA, hak, if_false, List.mem_cons] at h
      rcases h with rfl | h
      · exact Or.inl (List.mem_cons_self _ _)
      · rcases ih h with h | h
        · exact Or.inl (List.mem_cons_of_mem _ h)
        · exact Or.inr h

/-! ## Snapshot Indexer data model

`SerializedAXNode` (driver accessibility tree) and `TextSnapshotNode`
(`{...node, id, children}` built by `createTextSnapshot`), restricted to the
fields the session manager reads: `role`, `name`, `value`,
`loaderId`/`backendNodeId` (the unique backend key) and `children`.  The
spread copies further presentation fields verbatim; they are never consulted
by the indexing algorithm and are omitted. -/

/-- The unique backend key `` `${node.loaderId}_${node.backendNodeId}` ``. -/
structure BackendKey where
  loaderId : String
  backendNodeId : Nat
deriving DecidableEq, Repr

/-- A minted node id `` `${snapshotId}_${idCounter}` ``. -/
structure Uid where
  snap : Nat
  ord : Nat
deriving DecidableEq, Repr

inductive SAXNode : Type where
  | mk (role : String) (name : Option String) (value : Option String)
      (key : BackendKey) (children : List SAXNode)

def SAXNode.role : SAXNode → String
  | .mk r _ _ _ _ => r

def SAXNode.name : SAXNode → Option String
  | .mk _ n _ _ _ => n

def SAXNode.value : SAXNode → Option String
  | .mk _ _ v _ _ => v

def SAXNode.key : SAXNode → BackendKey
  | .mk _ _ _ k _ => k

def SAXNode.children : SAXNode → List SAXNode
  | .mk _ _ _ _ cs => cs

inductive TSNode : Type where
  | mk (role : String) (name : Option String) (value : Option String)
      (key : BackendKey) (id : Uid) (children : List TSNode)

def TSNode.role : TSNode → String
  | .mk r _ _ _ _ _ => r

def TSNode.name : TSNode → Option String
  | .mk _ n _ _ _ _ => n

def TSNode.value : TSNode → Option String
  | .mk _ _ v _ _ _ => v

def TSNode.key : TSNode → BackendKey
  | .mk _ _ _ k _ _ => k

def TSNode.id : TSNode → Uid
  | .mk _ _ _ _ i _ => i

def TSNode.children : TSNode → List TSNode
  | .mk _ _ _ _ _ cs => cs

mutual
/-- All backend keys occurring in a captured tree, in depth-first order. -/
def treeKeys : SAXNode → List BackendKey
  | .mk _ _ _ k cs => k :: treeKeysList cs
def treeKeysList : List SAXNode → List BackendKey
  | [] => []
  | t :: ts => treeKeys t ++ treeKeysList ts
end

mutual
/-- All nodes of a snapshot tree (the node itself and its descendants). -/
def tnodes : TSNode → List TSNode
  | .mk r n v k i cs => .mk r n v k i cs :: tnodesList cs
def tnodesList : List TSNode → List TSNode
  | [] => []
  | t :: ts => tnodes t ++ tnodesList ts
end

/-- The mutable state threaded through `assignIds` inside
`McpContext.createTextSnapshot`: the page's sticky map
`uniqueBackendNodeIdToMcpId`, the capture-local `idCounter`, `idToNode` and
`seenUniqueIds`. -/
structure AssignState where
  sticky : List (BackendKey × Uid)
  counter : Nat
  idToNode : List (Uid × TSNode)
  seen : List BackendKey

/-- Id assignment step for one node: reuse the sticky-map entry for the
unique backend key if present, else mint `` `${snapshotId}_${idCounter++}` ``
and store it in the sticky map. -/
def stepId (sid : Nat) (key : BackendKey) (st : AssignState) : Uid × AssignState :=
  match lookupA st.sticky key with
  | some u => (u, st)
  | none =>
      (⟨sid, st.counter⟩,
        { st with
            counter := st.counter + 1
            sticky := setA st.sticky key ⟨sid, st.counter⟩ })

/-- The option special case: `if (node.role === 'option') { const optionText =
node.name; if (optionText) nodeWithId.value = optionText.toString(); }`.
JS truthiness of a string: defined and non-empty. -/
def optionValue (role : String) (name value : Option String) : Option String :=
  if role = "option" then
    match name with
    | some s => if s = "" then value else some s
    | none => value
  else value

mutual
/-- `assignIds` from `McpContext.createTextSnapshot`: computes the id
(`stepId`), records the key in `seenUniqueIds`, recursively processes the
children, applies the option-value special case, and inserts the finished
node into `idToNode`. -/
def assignIds (sid : Nat) : SAXNode → AssignState → TSNode × AssignState
  | .mk role name value key cs, st =>
    let p := stepId sid key st
    let st2 : AssignState := { p.2 with seen := key :: p.2.seen }
    let q := assignIdsList sid cs st2
    let tnode : TSNode := .mk role name (optionValue role name value) key p.1 q.1
    (tnode, { q.2 with idToNode := setA q.2.idToNode p.1 tnode })
def assignIdsList (sid : Nat) : List SAXNode → AssignState → List TSNode × AssignState
  | [], st => ([], st)
  | t :: ts, st =>
    let p := assignIds sid t st
    let q := assignIdsList sid ts p.2
    (p.1 :: q.1, q.2)
end

/-- Result of one run of the per-page indexing algorithm of
`createTextSnapshot`: the labelled tree, the snapshot's `idToNode` index, and
the page's sticky map after the end-of-capture garbage collection (`for key
of keys: if (!seen.has(key)) delete`). -/
structure CaptureResult where
  root : TSNode
  idToNode : List (Uid × TSNode)
  sticky : List (BackendKey × Uid)

def captureSnapshot (sticky : List (BackendKey × Uid)) (sid : Nat)
    (root : SAXNode) : CaptureResult :=
  let r := assignIds sid root ⟨sticky, 0, [], []⟩
  ⟨r.1, r.2.idToNode, r.2.sticky.filter fun kv => decide (kv.1 ∈ r.2.seen)⟩

section SanityChecks

/-- A one-button page: first capture mints `1_0`, `1_1`. -/
example :
    (captureSnapshot [] 1
      (.mk "RootWebArea" (some "t") none ⟨"L", 10⟩
        [.mk "button" (some "Ok") none ⟨"L", 11⟩ []])).root.id = ⟨1, 0⟩ := rfl

example :
    (captureSnapshot [] 1
      (.mk "RootWebArea" (some "t") none ⟨"L", 10⟩
        [.mk "button" (some "Ok") none ⟨"L", 11⟩ []])).sticky =
      [(⟨"L", 10⟩, ⟨1, 0⟩), (⟨"L", 11⟩, ⟨1, 1⟩)] := rfl

/-- Second capture of the unchanged page reuses both uids. -/
example :
    (captureSnapshot
      (captureSnapshot [] 1
        (.mk "RootWebArea" (some "t") none ⟨"L", 10⟩
          [.mk "button" (some "Ok") none ⟨"L", 11⟩ []])).sticky 2
      (.mk "RootWebArea" (some "t") none ⟨"L", 10⟩
        [.mk "button" (some "Ok") none ⟨"L", 11⟩ []])).sticky =
      [(⟨"L", 10⟩, ⟨1, 0⟩), (⟨"L", 11⟩, ⟨1, 1⟩)] := rfl

end SanityChecks

/-! ## Inner lemmas about `assignIds` -/

theorem stepId_seen (sid : Nat) (key : BackendKey) (st : AssignState) :
    (stepId sid key st).2.seen = st.seen := by
  unfold stepId
  cases lookupA st.sticky key <;> rfl

theorem stepId_idToNode (sid : Nat) (key : BackendKey) (st : AssignState) :
    (stepId sid key st).2.idToNode = st.idToNode := by
  unfold stepId
  cases lookupA st.sticky key <;> rfl

theorem stepId_lookup_self (sid : Nat) (key : BackendKey) (st : AssignState) :
    lookupA (stepId sid key st).2.sticky key = some (stepId sid key st).1 := by
  unfold stepId
  cases hl : lookupA st.sticky key with
  | some u => simpa using hl
  | none => simp [lookupA_setA]

theorem stepId_lookup_mono (sid : Nat) (key : BackendKey) (st : AssignState)
    (k : BackendKey) (u : Uid) (h : lookupA st.sticky k = some u) :
    lookupA (stepId sid key st).2.sticky k = some u := by
  unfold stepId
  cases hl : lookupA st.sticky key with
  | some u' => simpa using h
  | none =>
    have hk : key ≠ k := by
      intro he
      rw [he, h] at hl
      exact Option.noConfusion hl
    simp [lookupA_setA, hk, h]

mutual
/-- Entries of the sticky map are never overwritten during a capture. -/
theorem sticky_mono_node (sid : Nat) (t : SAXNode) (st : AssignState)
    (k : BackendKey) (u : Uid) (h : lookupA st.sticky k = some u) :
    lookupA (assignIds sid t st).2.sticky k = some u := by
  cases t with
  | mk role name value key cs =>
    simp only [assignIds]
    exact sticky_mono_list sid cs _ k u (stepId_lookup_mono sid key st k u h)
theorem sticky_mono_list (sid : Nat) (ts : List SAXNode) (st : AssignState)
    (k : BackendKey) (u : Uid) (h : lookupA st.sticky k = some u) :
    lookupA (assignIdsList sid ts st).2.sticky k = some u := by
  cases ts with
  | nil => simpa [assignIdsList] using h
  | cons t ts =>
    simp only [assignIdsList]
    exact sticky_mono_list sid ts _ k u (sticky_mono_node sid t st k u h)
end

mutual
/-- After a traversal the sticky map has an entry for every key of the tree. -/
theorem sticky_covers_node (sid : Nat) (t : SAXNode) (st : AssignState)
    (k : BackendKey) (h : k ∈ treeKeys t) :
    ∃ u, lookupA (assignIds sid t st).2.sticky k = some u := by
  cases t with
  | mk role name value key cs =>
    simp only [treeKeys, List.mem_cons] at h
    simp only [assignIds]
    rcases h with rfl | h
    · exact ⟨(stepId sid k st).1,
        sticky_mono_list sid cs _ k _ (stepId_lookup_self sid k st)⟩
    · exact sticky_covers_list sid cs _ k h
theorem sticky_covers_list (sid : Nat) (ts : List SAXNode) (st : AssignState)
    (k : BackendKey) (h : k ∈ treeKeysList ts) :
    ∃ u, lookupA (assignIdsList sid ts st).2.sticky k = some u := by
  cases ts with
  | nil => simp [treeKeysList] at h
  | cons t ts =>
    simp only [treeKeysList, List.mem_append] at h
    simp only [assignIdsList]
    rcases h with h | h
    · obtain ⟨u, hu⟩ := sticky_covers_node sid t st k h
      exact ⟨u, sticky_mono_list sid ts _ k u hu⟩
    · exact sticky_covers_list sid ts _ k h
end

mutual
/-- Every node of the output tree carries the id recorded for its key in the
final sticky map. -/
theorem out_id_node (sid : Nat) (t : SAXNode) (st : AssignState) :
    ∀ m ∈ tnodes (assignIds sid t st).1,
      lookupA (assignIds sid t st).2.sticky m.key = some m.id := by
  cases t with
  | mk role name value key cs =>
    intro m hm
    simp only [assignIds, tnodes, List.mem_cons] at hm ⊢
    rcases hm with rfl | hm
    · exact sticky_mono_list sid cs _ key _ (stepId_lookup_self sid key st)
    · exact out_id_list sid cs _ m hm
theorem out_id_list (sid : Nat) (ts : List SAXNode) (st : AssignState) :
    ∀ m ∈ tnodesList (assignIdsList sid ts st).1,
      lookupA (assignIdsList sid ts st).2.sticky m.key = some m.id := by
  cases ts with
  | nil => intro m hm; simp [assignIdsList, tnodesList] at hm
  | cons t ts =>
    intro m hm
    simp only [assignIdsList, tnodesList, List.mem_append] at hm ⊢
    rcases hm with hm | hm
    · exact sticky_mono_list sid ts _ _ _ (out_id_node sid t st m hm)
    · exact out_id_list sid ts _ m hm
end

mutual
/-- `seenUniqueIds` after a traversal: exactly the prior content plus every
key of the tree. -/
theorem seen_node (sid : Nat) (t : SAXNode) (st : AssignState) (k : BackendKey) :
    k ∈ (assignIds sid t st).2.seen ↔ k ∈ treeKeys t ∨ k ∈ st.seen := by
  cases t with
  | mk role name value key cs =>
    simp only [assignIds, treeKeys]
    rw [seen_list]
    simp [stepId_seen, List.mem_cons, or_assoc, or_left_comm, or_comm]
theorem seen_list (sid : Nat) (ts : List SAXNode) (st : AssignState) (k : BackendKey) :
    k ∈ (assignIdsList sid ts st).2.seen ↔ k ∈ treeKeysList ts ∨ k ∈ st.seen := by
  cases ts with
  | nil => simp [assignIdsList, treeKeysList]
  | cons t ts =>
    simp only [assignIdsList, treeKeysList]
    rw [seen_list, seen_node]
    simp only [List.mem_append, or_assoc]
    tauto
end


/-! ## Claim C1: stable identity across successive captures -/

/-- C1.  Stable identity of accessibility-node identifiers: if a unique
backend key occurs in two successive snapshot captures of a page, the
identifier assigned to it by the second capture (whatever node carries the
key in the second output tree) equals the identifier assigned by the first
capture — the sticky-map entry is reused, no new id is minted. -/
theorem uid_stable_across_captures
    (sticky0 : List (BackendKey × Uid)) (sid1 sid2 : Nat)
    (t1 t2 : SAXNode) (k : BackendKey) (m1 m2 : TSNode)
    (h1 : k ∈ treeKeys t1) (h2 : k ∈ treeKeys t2)
    (hm1 : m1 ∈ tnodes (captureSnapshot sticky0 sid1 t1).root) (hk1 : m1.key = k)
    (hm2 : m2 ∈ tnodes
      (captureSnapshot (captureSnapshot sticky0 sid1 t1).sticky sid2 t2).root)
    (hk2 : m2.key = k) :
    m2.id = m1.id := by
  have e1 : lookupA (assignIds sid1 t1 ⟨sticky0, 0, [], []⟩).2.sticky k = some m1.id := by
    have h := out_id_node sid1 t1 ⟨sticky0, 0, [], []⟩ m1 hm1
    rwa [hk1] at h
  have hseen : k ∈ (assignIds sid1 t1 ⟨sticky0, 0, [], []⟩).2.seen := by
    rw [seen_node]
    exact Or.inl h1
  have e2 : lookupA (captureSnapshot sticky0 sid1 t1).sticky k = some m1.id := by
    show lookupA (List.filter _ _) k = _
    rw [lookupA_filter_mem]
    simp [hseen, e1]
  have e3 : lookupA (assignIds sid2 t2
      ⟨(captureSnapshot sticky0 sid1 t1).sticky, 0, [], []⟩).2.sticky k = some m1.id :=
    sticky_mono_node _ _ _ _ _ e2
  have e4 : lookupA (assignIds sid2 t2
      ⟨(captureSnapshot sticky0 sid1 t1).sticky, 0, [], []⟩).2.sticky k = some m2.id := by
    have h := out_id_node sid2 t2
      ⟨(captureSnapshot sticky0 sid1 t1).sticky, 0, [], []⟩ m2 hm2
    rwa [hk2] at h
  rw [e3] at e4
  exact (Option.some_inj.mp e4).symm

/-- Concrete input for the C1 witness: a root with one button. -/
def wTreeC1 : SAXNode :=
  .mk "RootWebArea" (some "t") none ⟨"L", 10⟩
    [.mk "button" (some "Ok") none ⟨"L", 11⟩ []]

def wButtonC1 : TSNode := .mk "button" (some "Ok") none ⟨"L", 11⟩ ⟨1, 1⟩ []

theorem uid_stable_across_captures_witness :
    (⟨"L", 11⟩ : BackendKey) ∈ treeKeys wTreeC1 ∧
    wButtonC1 ∈ tnodes (captureSnapshot [] 1 wTreeC1).root ∧
    wButtonC1 ∈ tnodes
      (captureSnapshot (captureSnapshot [] 1 wTreeC1).sticky 2 wTreeC1).root ∧
    wButtonC1.id = wButtonC1.id :=
  ⟨by decide,
   List.Mem.tail _ (List.Mem.head _),
   List.Mem.tail _ (List.Mem.head _),
   uid_stable_across_captures [] 1 2 wTreeC1 wTreeC1 ⟨"L", 11⟩ wButtonC1 wButtonC1
     (by decide) (by decide)
     (List.Mem.tail _ (List.Mem.head _)) rfl
     (List.Mem.tail _ (List.Mem.head _)) rfl⟩

/-! ## Claim C2: garbage collection of vanished nodes

The code's global invariant feeding this claim: `#nextSnapshotId` is
strictly increasing across captures, and every id stored in a sticky map was
minted at some earlier snapshot id.  `StickyBound`/`StickyInj` state this
for one sticky map; both are preserved by a capture. -/

def StickyBound (sid c : Nat) (sticky : List (BackendKey × Uid)) : Prop :=
  ∀ e ∈ sticky, e.2.snap < sid ∨ (e.2.snap = sid ∧ e.2.ord < c)

def StickyInj (sticky : List (BackendKey × Uid)) : Prop :=
  ∀ e ∈ sticky, ∀ f ∈ sticky, e.2 = f.2 → e.1 = f.1

theorem stepId_inv (sid : Nat) (key : BackendKey) (st : AssignState)
    (hb : StickyBound sid st.counter st.sticky) (hi : StickyInj st.sticky) :
    StickyBound sid (stepId sid key st).2.counter (stepId sid key st).2.sticky ∧
      StickyInj (stepId sid key st).2.sticky ∧
      st.counter ≤ (stepId sid key st).2.counter := by
  cases hl : lookupA st.sticky key with
  | some u =>
    simp only [stepId, hl]
    exact ⟨hb, hi, le_refl _⟩
  | none =>
    simp only [stepId, hl]
    refine ⟨?_, ?_, Nat.le_succ _⟩
    · intro e he
      rcases mem_setA _ _ _ _ he with he | rfl
      · rcases hb e he with h | ⟨hs, ho⟩
        · exact Or.inl h
        · exact Or.inr ⟨hs, Nat.lt_succ_of_lt ho⟩
      · exact Or.inr ⟨rfl, Nat.lt_succ_self _⟩
    · have hfresh : ∀ e ∈ st.sticky, e.2 ≠ (⟨sid, st.counter⟩ : Uid) := by
        intro e he heq
        rcases hb e he with h | ⟨hs, ho⟩
        · rw [heq] at h
          exact lt_irrefl _ h
        · rw [heq] at ho
          exact lt_irrefl _ ho
      intro e he f hf hef
      rcases mem_setA _ _ _ _ he with he | rfl <;> rcases mem_setA _ _ _ _ hf with hf | rfl
      · exact hi e he f hf hef
      · exact absurd hef (hfresh e he)
      · exact absurd hef.symm (hfresh f hf)
      · rfl

mutual
/-- The freshness bound and injectivity of the sticky map survive a
traversal, and the id counter never decreases. -/
theorem inv_node (sid : Nat) (t : SAXNode) (st : AssignState)
    (hb : StickyBound sid st.counter st.sticky) (hi : StickyInj st.sticky) :
    StickyBound sid (assignIds sid t st).2.counter (assignIds sid t st).2.sticky ∧
      StickyInj (assignIds sid t st).2.sticky ∧
      st.counter ≤ (assignIds sid t st).2.counter := by
  cases t with
  | mk role name value key cs =>
    obtain ⟨hb1, hi1, hc1⟩ := stepId_inv sid key st hb hi
    simp only [assignIds]
    obtain ⟨hb2, hi2, hc2⟩ := inv_list sid cs
      { (stepId sid key st).2 with seen := key :: (stepId sid key st).2.seen } hb1 hi1
    exact ⟨hb2, hi2, le_trans hc1 hc2⟩
theorem inv_list (sid : Nat) (ts : List SAXNode) (st : AssignState)
    (hb : StickyBound sid st.counter st.sticky) (hi : StickyInj st.sticky) :
    StickyBound sid (assignIdsList sid ts st).2.counter (assignIdsList sid ts st).2.sticky ∧
      StickyInj (assignIdsList sid ts st).2.sticky ∧
      st.counter ≤ (assignIdsList sid ts st).2.counter := by
  cases ts with
  | nil => exact ⟨hb, hi, le_refl _⟩
  | cons t ts =>
    obtain ⟨hb1, hi1, hc1⟩ := inv_node sid t st hb hi
    simp only [assignIdsList]
    obtain ⟨hb2, hi2, hc2⟩ := inv_list sid ts (assignIds sid t st).2 hb1 hi1
    exact ⟨hb2, hi2, le_trans hc1 hc2⟩
end

mutual
/-- Every node of the output tree carries a key of the input tree. -/
theorem out_keys_node (sid : Nat) (t : SAXNode) (st : AssignState) :
    ∀ m ∈ tnodes (assignIds sid t st).1, m.key ∈ treeKeys t := by
  cases t with
  | mk role name value key cs =>
    intro m hm
    simp only [assignIds, tnodes, List.mem_cons] at hm
    simp only [treeKeys, List.mem_cons]
    rcases hm with rfl | hm
    · exact Or.inl rfl
    · exact Or.inr (out_keys_list sid cs _ m hm)
theorem out_keys_list (sid : Nat) (ts : List SAXNode) (st : AssignState) :
    ∀ m ∈ tnodesList (assignIdsList sid ts st).1, m.key ∈ treeKeysList ts := by
  cases ts with
  | nil => intro m hm; simp [assignIdsList, tnodesList] at hm
  | cons t ts =>
    intro m hm
    simp only [assignIdsList, tnodesList, List.mem_append] at hm
    simp only [treeKeysList, List.mem_append]
    rcases hm with hm | hm
    · exact Or.inl (out_keys_node sid t st m hm)
    · exact Or.inr (out_keys_list sid ts _ m hm)
end

mutual
/-- Every `idToNode` entry either predates the traversal or indexes a node of
the output tree by that node's id. -/
theorem idToNode_sub_node (sid : Nat) (t : SAXNode) (st : AssignState) :
    ∀ e ∈ (assignIds sid t st).2.idToNode,
      e ∈ st.idToNode ∨ ∃ m ∈ tnodes (assignIds sid t st).1, e.1 = m.id := by
  cases t with
  | mk role name value key cs =>
    intro e he
    simp only [assignIds] at he ⊢
    rcases mem_setA _ _ _ _ he with he | rfl
    · rcases idToNode_sub_list sid cs _ e he with he | ⟨m, hm, hid⟩
      · rw [stepId_idToNode] at he
        exact Or.inl he
      · exact Or.inr ⟨m, List.mem_cons_of_mem _ hm, hid⟩
    · refine Or.inr ⟨_, List.mem_cons_self _ _, rfl⟩
theorem idToNode_sub_list (sid : Nat) (ts : List SAXNode) (st : AssignState) :
    ∀ e ∈ (assignIdsList sid ts st).2.idToNode,
      e ∈ st.idToNode ∨ ∃ m ∈ tnodesList (assignIdsList sid ts st).1, e.1 = m.id := by
  cases ts with
  | nil => intro e he; exact Or.inl he
  | cons t ts =>
    intro e he
    simp only [assignIdsList] at he ⊢
    rcases idToNode_sub_list sid ts _ e he with he | ⟨m, hm, hid⟩
    · rcases idToNode_sub_node sid t st e he with he | ⟨m, hm, hid⟩
      · exact Or.inl he
      · exact Or.inr ⟨m, by simp only [tnodesList, List.mem_append]; exact Or.inl hm, hid⟩
    · exact Or.inr ⟨m, by simp only [tnodesList, List.mem_append]; exact Or.inr hm, hid⟩
end

/-- C2.  Garbage collection of vanished nodes: if a unique backend key is
present in one capture and absent from the next capture of the same page,
then after the second capture the key's sticky-map entry has been deleted
and the old identifier no longer resolves in the page's current `idToNode`
index.  The hypotheses `StickyBound`/`StickyInj`/`sid1 < sid2` express the
code's global invariant that snapshot ids strictly increase and every sticky
id was minted at an earlier snapshot id. -/
theorem gc_unresolvable
    (sticky0 : List (BackendKey × Uid)) (sid1 sid2 : Nat)
    (t1 t2 : SAXNode) (k : BackendKey) (m1 : TSNode)
    (hb : StickyBound sid1 0 sticky0) (hi : StickyInj sticky0) (hs : sid1 < sid2)
    (h1 : k ∈ treeKeys t1) (h2 : k ∉ treeKeys t2)
    (hm1 : m1 ∈ tnodes (captureSnapshot sticky0 sid1 t1).root) (hk1 : m1.key = k) :
    lookupA (captureSnapshot (captureSnapshot sticky0 sid1 t1).sticky sid2 t2).sticky
        k = none ∧
      lookupA (captureSnapshot (captureSnapshot sticky0 sid1 t1).sticky sid2 t2).idToNode
        m1.id = none := by
  have e1 : lookupA (assignIds sid1 t1 ⟨sticky0, 0, [], []⟩).2.sticky k = some m1.id := by
    have h := out_id_node sid1 t1 ⟨sticky0, 0, [], []⟩ m1 hm1
    rwa [hk1] at h
  have hseen1 : k ∈ (assignIds sid1 t1 ⟨sticky0, 0, [], []⟩).2.seen := by
    rw [seen_node]
    exact Or.inl h1
  have e2 : lookupA (captureSnapshot sticky0 sid1 t1).sticky k = some m1.id := by
    show lookupA (List.filter _ _) k = _
    rw [lookupA_filter_mem]
    simp [hseen1, e1]
  obtain ⟨hb1, hi1, -⟩ :=
    inv_node sid1 t1 ⟨sticky0, 0, [], []⟩ (fun e he => hb e he) hi
  have hb2 : StickyBound sid2 0 (captureSnapshot sticky0 sid1 t1).sticky := by
    intro e he
    have he' : e ∈ (assignIds sid1 t1 ⟨sticky0, 0, [], []⟩).2.sticky :=
      List.mem_of_mem_filter he
    rcases hb1 e he' with h | ⟨h, -⟩
    · exact Or.inl (lt_trans h hs)
    · exact Or.inl (h ▸ hs)
  have hi2 : StickyInj (captureSnapshot sticky0 sid1 t1).sticky := by
    intro e he f hf hef
    exact hi1 e (List.mem_of_mem_filter he) f (List.mem_of_mem_filter hf) hef
  have hseen2 : k ∉ (assignIds sid2 t2
      ⟨(captureSnapshot sticky0 sid1 t1).sticky, 0, [], []⟩).2.seen := by
    rw [seen_node]
    intro h
    rcases h with h | h
    · exact h2 h
    · exact List.not_mem_nil _ h
  constructor
  · show lookupA (List.filter _ _) k = _
    rw [lookupA_filter_mem]
    simp [hseen2]
  · show lookupA (assignIds sid2 t2
      ⟨(captureSnapshot sticky0 sid1 t1).sticky, 0, [], []⟩).2.idToNode m1.id = none
    apply lookupA_eq_none_of_forall
    intro e he hid
    rcases idToNode_sub_node sid2 t2
        ⟨(captureSnapshot sticky0 sid1 t1).sticky, 0, [], []⟩ e he with h | ⟨m, hm, hid'⟩
    · exact List.not_mem_nil _ h
    · obtain ⟨-, hi3, -⟩ := inv_node sid2 t2
        ⟨(captureSnapshot sticky0 sid1 t1).sticky, 0, [], []⟩ hb2 hi2
      have em : lookupA (assignIds sid2 t2
          ⟨(captureSnapshot sticky0 sid1 t1).sticky, 0, [], []⟩).2.sticky m.key =
          some m.id :=
        out_id_node sid2 t2 _ m hm
      have ek : lookupA (assignIds sid2 t2
          ⟨(captureSnapshot sticky0 sid1 t1).sticky, 0, [], []⟩).2.sticky k =
          some m1.id :=
        sticky_mono_node _ _ _ _ _ e2
      have hmemm := mem_of_lookupA_eq_some _ _ _ em
      have hmemk := mem_of_lookupA_eq_some _ _ _ ek
      have hkeys : m.key = k := by
        have := hi3 (m.key, m.id) hmemm (k, m1.id) hmemk
        simp only at this
        exact this (hid' ▸ hid)
      exact h2 (hkeys ▸ out_keys_node sid2 t2 _ m hm)

/-- Concrete input for the C2 witness: the button vanishes in the second
capture. -/
def wTreeC2a : SAXNode :=
  .mk "RootWebArea" (some "t") none ⟨"L", 10⟩
    [.mk "button" (some "Ok") none ⟨"L", 11⟩ []]

def wTreeC2b : SAXNode := .mk "RootWebArea" (some "t") none ⟨"L", 10⟩ []

def wButtonC2 : TSNode := .mk "button" (some "Ok") none ⟨"L", 11⟩ ⟨1, 1⟩ []

theorem gc_unresolvable_witness :
    (⟨"L", 11⟩ : BackendKey) ∈ treeKeys wTreeC2a ∧
    (⟨"L", 11⟩ : BackendKey) ∉ treeKeys wTreeC2b ∧
    wButtonC2 ∈ tnodes (captureSnapshot [] 1 wTreeC2a).root ∧
    lookupA (captureSnapshot (captureSnapshot [] 1 wTreeC2a).sticky 2 wTreeC2b).sticky
      ⟨"L", 11⟩ = none ∧
    lookupA (captureSnapshot (captureSnapshot [] 1 wTreeC2a).sticky 2 wTreeC2b).idToNode
      ⟨1, 1⟩ = none := by
  have h := gc_unresolvable [] 1 2 wTreeC2a wTreeC2b ⟨"L", 11⟩ wButtonC2
    (by intro e he; exact absurd he (List.not_mem_nil e))
    (by intro e he; exact absurd he (List.not_mem_nil e))
    (by decide) (by decide) (by decide)
    (List.Mem.tail _ (List.Mem.head _)) rfl
  exact ⟨by decide, by decide, List.Mem.tail _ (List.Mem.head _), h.1, h.2⟩

/-! ## Session-manager state (`McpContext` / `McpPage`)

Opaque driver handles (`Page`, `BrowserContext`) are embedded as natural
numbers.  The driver-visible attributes the manager reads or writes —
`browserContext()`, `isClosed()`, the two default timeouts, the
`emulateFocusedPage` signal and whether the url starts with `devtools://` —
live in a total driver table `PageH → DriverPage`. -/

abbrev PageH := Nat

abbrev CtxH := Nat

structure GeolocationOptions where
  latitude : ℚ
  longitude : ℚ
  accuracy : Option ℚ := none
deriving DecidableEq, Repr

/-- Input viewport: `width`/`height` required, the rest optional
(puppeteer `Viewport`). -/
structure Viewport where
  width : Nat
  height : Nat
  deviceScaleFactor : Option ℚ := none
  isMobile : Option Bool := none
  hasTouch : Option Bool := none
  isLandscape : Option Bool := none
deriving DecidableEq, Repr

/-- Stored viewport after `{...defaults, ...options.viewport}`. -/
structure ViewportApplied where
  width : Nat
  height : Nat
  deviceScaleFactor : ℚ
  isMobile : Bool
  hasTouch : Bool
  isLandscape : Bool
deriving DecidableEq, Repr

def mergeViewport (v : Viewport) : ViewportApplied :=
  ⟨v.width, v.height, v.deviceScaleFactor.getD 1, v.isMobile.getD false,
    v.hasTouch.getD false, v.isLandscape.getD false⟩

/-- `EmulationSettings`: each field independently absent (JS `delete`) or
set. -/
structure EmulationSettings where
  networkConditions : Option String := none
  cpuThrottlingRate : Option ℚ := none
  geolocation : Option GeolocationOptions := none
  userAgent : Option String := none
  colorScheme : Option String := none
  viewport : Option ViewportApplied := none
deriving DecidableEq, Repr

/-- `TextSnapshot` attached to a page record. -/
structure TextSnapshot where
  root : TSNode
  snapshotId : Nat
  idToNode : List (Uid × TSNode)
  hasSelectedElement : Bool
  selectedElementUid : Option Uid := none
  verbose : Bool

/-- `McpPage`: the per-page state wrapper.  The dialog field and the
DevTools-window pairing are driven purely by external events the claims
never consult and are omitted. -/
structure McpPage where
  id : Nat
  textSnapshot : Option TextSnapshot := none
  uniqueBackendNodeIdToMcpId : List (BackendKey × Uid) := []
  emulationSettings : EmulationSettings := {}
  isolatedContextName : Option String := none

def McpPage.networkConditions (p : McpPage) : Option String :=
  p.emulationSettings.networkConditions

def McpPage.cpuThrottlingRate (p : McpPage) : ℚ :=
  p.emulationSettings.cpuThrottlingRate.getD 1

/-- Driver-side per-page state the manager interacts with. -/
structure DriverPage where
  ctx : CtxH := 0
  closed : Bool := false
  focusSignal : Bool := false
  defaultTimeout : ℚ := 30000
  navTimeout : ℚ := 30000
  isDevtools : Bool := false
deriving DecidableEq, Repr

structure McpState where
  pages : List PageH
  mcpPages : List (PageH × McpPage)
  selectedPage : Option PageH := none
  requestPage : Option PageH := none
  focusedPagePerContext : List (CtxH × PageH) := []
  isolatedContexts : List (String × CtxH) := []
  nextIsolatedContextId : Nat := 1
  nextPageId : Nat := 1
  nextSnapshotId : Nat := 1
  driver : PageH → DriverPage
  defaultCtx : CtxH := 0
  experimentalDevToolsDebugging : Bool := false

def updDriver (d : PageH → DriverPage) (p : PageH) (f : DriverPage → DriverPage) :
    PageH → DriverPage :=
  fun q => if q = p then f (d q) else d q

/-- The error taxonomy, as distinguishable throw sites of `McpContext`.
Message payload is reduced to the interpolated ids (`none` renders the
`'?'` fallback). -/
inductive McpError : Type where
  | lastPage
  | pageNotFound
  | noPageSelected
  | selectedPageClosed
  | noMcpPage
  | noSnapshotForPage (pageId : Option Nat)
  | uidNotFoundOnPage (pageId : Nat)
  | noSnapshotAny
  | unknownUid
  | focusViolation (targetId : Nat) (selectedId : Option Nat)
  | staleElement (uid : Uid)
  | focusAssert (targetId : Option Nat) (focusedId : Option Nat)
deriving DecidableEq, Repr

/-- `getSelectedPage()`. -/
def getSelectedPage (st : McpState) : Except McpError PageH :=
  match st.selectedPage with
  | none => .error .noPageSelected
  | some p => if (st.driver p).closed then .error .selectedPageClosed else .ok p

/-- `#resolveTargetPage()`: `this.#requestPage ?? this.getSelectedPage()`. -/
def resolveTargetPage (st : McpState) : Except McpError PageH :=
  match st.requestPage with
  | some p => .ok p
  | none => getSelectedPage st

/-- `#getMcpPage(page)`. -/
def getMcpPageE (st : McpState) (p : PageH) : Except McpError McpPage :=
  match lookupA st.mcpPages p with
  | some mp => .ok mp
  | none => .error .noMcpPage

/-- `getCpuThrottlingRate()` as used by `#updateSelectedPageTimeouts`. -/
def getCpuThrottlingRateE (st : McpState) : Except McpError ℚ := do
  let p ← resolveTargetPage st
  let mp ← getMcpPageE st p
  return mp.cpuThrottlingRate

/-- `getNetworkConditions()`. -/
def getNetworkConditionsE (st : McpState) : Except McpError (Option String) := do
  let p ← resolveTargetPage st
  let mp ← getMcpPageE st p
  return mp.networkConditions

def DEFAULT_TIMEOUT : ℚ := 5000

def NAVIGATION_TIMEOUT : ℚ := 10000

/-- `getNetworkMultiplierFromString` — the fixed lookup table; unlisted or
absent labels multiply by 1. -/
def getNetworkMultiplierFromString (condition : Option String) : ℚ :=
  match condition with
  | some "Fast 4G" => 1
  | some "Slow 4G" => 5 / 2
  | some "Fast 3G" => 5
  | some "Slow 3G" => 10
  | _ => 1

/-- `#updateSelectedPageTimeouts()`: sets both timeouts on the *selected*
page, with multipliers read via `#resolveTargetPage()`. -/
def updateSelectedPageTimeouts (st : McpState) : Except McpError Unit × McpState :=
  match getSelectedPage st with
  | .error e => (.error e, st)
  | .ok page =>
    match getCpuThrottlingRateE st with
    | .error e => (.error e, st)
    | .ok cpu =>
      let d1 := updDriver st.driver page
        (fun d => { d with defaultTimeout := DEFAULT_TIMEOUT * cpu })
      let st1 := { st with driver := d1 }
      match getNetworkConditionsE st1 with
      | .error e => (.error e, st1)
      | .ok cond =>
        let d2 := updDriver st1.driver page
          (fun d => { d with
            navTimeout := NAVIGATION_TIMEOUT * getNetworkMultiplierFromString cond })
        (.ok (), { st1 with driver := d2 })

/-- `selectPage(newPage)`: best-effort defocus signal to the previously
focused open page of the context, install the focus-map entry and the global
selected pointer, recompute timeouts, then the focus signal on the new
page.  A throw from the timeout recomputation aborts before the final
signal. -/
def selectPage (st : McpState) (newPage : PageH) : Except McpError Unit × McpState :=
  let ctx := (st.driver newPage).ctx
  let d1 := match lookupA st.focusedPagePerContext ctx with
    | some old =>
      if old ≠ newPage ∧ ¬(st.driver old).closed then
        updDriver st.driver old (fun d => { d with focusSignal := false })
      else st.driver
    | none => st.driver
  let st1 : McpState := { st with
    driver := d1
    focusedPagePerContext := setA st.focusedPagePerContext ctx newPage
    selectedPage := some newPage }
  match updateSelectedPageTimeouts st1 with
  | (.error e, st2) => (.error e, st2)
  | (.ok _, st2) =>
    let d2 := updDriver st2.driver newPage (fun d => { d with focusSignal := true })
    (.ok (), { st2 with driver := d2 })

/-- `assertPageIsFocused(page)`: `some e` means the throw `e`. -/
def assertPageIsFocused (st : McpState) (page : PageH) : Option McpError :=
  match lookupA st.focusedPagePerContext (st.driver page).ctx with
  | some focused =>
    if focused ≠ page then
      some (.focusAssert ((lookupA st.mcpPages page).map McpPage.id)
        ((lookupA st.mcpPages focused).map McpPage.id))
    else none
  | none => none

/-- `getPageById(pageId)`. -/
def getPageByIdE (st : McpState) (pageId : Nat) : Except McpError PageH :=
  match st.pages.find? (fun p => decide ((lookupA st.mcpPages p).map McpPage.id
      = some pageId)) with
  | some p => .ok p
  | none => .error .pageNotFound

/-- `closePage(pageId)`: last-page check first, then page resolution, record
disposal, focus-map cleanup, and the driver-side close. -/
def closePage (st : McpState) (pageId : Nat) : Except McpError Unit × McpState :=
  if st.pages.length = 1 then (.error .lastPage, st)
  else
    match getPageByIdE st pageId with
    | .error e => (.error e, st)
    | .ok page =>
      let st1 := match lookupA st.mcpPages page with
        | some _ => { st with mcpPages := eraseA st.mcpPages page }
        | none => st
      let ctx := (st1.driver page).ctx
      let st2 := if lookupA st1.focusedPagePerContext ctx = some page then
          { st1 with focusedPagePerContext := eraseA st1.focusedPagePerContext ctx }
        else st1
      let d2 := updDriver st2.driver page (fun d => { d with closed := true })
      (.ok (), { st2 with driver := d2 })

/-- `#resolveElementHandle(node, uid)`: the driver's answer is the oracle;
`none` covers both a `null` handle and a driver-side throw, both wrapped
into the stale-element error. -/
def resolveElementHandle (oracle : TSNode → Option Nat) (node : TSNode) (uid : Uid) :
    Except McpError Nat :=
  match oracle node with
  | some h => .ok h
  | none => .error (.staleElement uid)

/-- Scoped form of `getElementByUid` (page given). -/
def getElementByUidScoped (st : McpState) (uid : Uid) (page : PageH)
    (oracle : TSNode → Option Nat) : Except McpError Nat :=
  match lookupA st.mcpPages page with
  | none => .error (.noSnapshotForPage none)
  | some mp =>
    match mp.textSnapshot with
    | none => .error (.noSnapshotForPage (some mp.id))
    | some snap =>
      match lookupA snap.idToNode uid with
      | none => .error (.uidNotFoundOnPage mp.id)
      | some node => resolveElementHandle oracle node uid

/-- The cross-page loop of the unscoped `getElementByUid`: iterate the
`#mcpPages` entries in insertion order carrying the `anySnapshot` flag. -/
def crossPageSearch (st : McpState) (uid : Uid) (oracle : TSNode → Option Nat) :
    List (PageH × McpPage) → Bool → Except McpError Nat × McpState
  | [], anySnapshot =>
    (if anySnapshot then .error .unknownUid else .error .noSnapshotAny, st)
  | (searchPage, mp) :: rest, anySnapshot =>
    match mp.textSnapshot with
    | none => crossPageSearch st uid oracle rest anySnapshot
    | some snap =>
      match lookupA snap.idToNode uid with
      | none => crossPageSearch st uid oracle rest true
      | some node =>
        let ctx := (st.driver searchPage).ctx
        match lookupA st.focusedPagePerContext ctx with
        | some ctxSel =>
          if ctxSel ≠ searchPage then
            (.error (.focusViolation mp.id ((lookupA st.mcpPages ctxSel).map McpPage.id)),
              st)
          else
            (resolveElementHandle oracle node uid,
              if st.selectedPage ≠ some searchPage then
                { st with selectedPage := some searchPage }
              else st)
        | none =>
          match getSelectedPage st with
          | .error e => (.error e, st)
          | .ok sp =>
            match lookupA st.mcpPages sp with
            | none => (.error .noMcpPage, st)
            | some smp => (.error (.focusViolation mp.id (some smp.id)), st)

/-- `getElementByUid(uid, page?)`. -/
def getElementByUid (st : McpState) (uid : Uid) (page : Option PageH)
    (oracle : TSNode → Option Nat) : Except McpError Nat × McpState :=
  match page with
  | some p => (getElementByUidScoped st uid p oracle, st)
  | none => crossPageSearch st uid oracle st.mcpPages false

/-! ## Claims C3 and C10: the last-page invariant of `closePage` -/

/-- C3.  Last-page invariant: when exactly one page remains registered,
`closePage` on that page fails with the last-page error and returns with the
entire session state unchanged — in particular the page registry, the focus
map, the selected pointer, and the driver-side open/closed status of the
page. -/
theorem closePage_last_page_invariant (st : McpState) (p : PageH) (pageId : Nat)
    (hone : st.pages = [p])
    (hid : (lookupA st.mcpPages p).map McpPage.id = some pageId) :
    closePage st pageId = (.error .lastPage, st) ∧
      ((closePage st pageId).2.driver p).closed = (st.driver p).closed := by
  have h : closePage st pageId = (.error .lastPage, st) := by
    unfold closePage
    rw [hone]
    rfl
  exact ⟨h, by rw [h]⟩

def stC3 : McpState :=
  { pages := [1], mcpPages := [(1, { id := 1 })], selectedPage := some 1,
    focusedPagePerContext := [(0, 1)], driver := fun _ => {} }

theorem closePage_last_page_invariant_witness :
    stC3.pages = [1] ∧
    closePage stC3 1 = (.error .lastPage, stC3) ∧
    ((closePage stC3 1).2.driver 1).closed = false :=
  ⟨rfl, (closePage_last_page_invariant stC3 1 1 rfl rfl).1,
    (closePage_last_page_invariant stC3 1 1 rfl rfl).2⟩

/-- C10.  The last-page check precedes pageId resolution: with exactly one
registered page, `closePage` throws the last-page error for *every* pageId —
also ids naming no page — never the not-found error, and mutates nothing
before the throw. -/
theorem closePage_check_precedes_resolution (st : McpState) (pageId : Nat)
    (hone : st.pages.length = 1) :
    closePage st pageId = (.error .lastPage, st) := by
  unfold closePage
  rw [hone]
  rfl

theorem closePage_check_precedes_resolution_witness :
    stC3.pages.length = 1 ∧ closePage stC3 999 = (.error .lastPage, stC3) :=
  ⟨rfl, closePage_check_precedes_resolution stC3 999 rfl⟩

/-! ## Claim C5: focus exclusivity and cross-context independence -/

theorem updateSelectedPageTimeouts_fpc (st : McpState) :
    (updateSelectedPageTimeouts st).2.focusedPagePerContext =
      st.focusedPagePerContext := by
  unfold updateSelectedPageTimeouts
  split
  · rfl
  · split
    · rfl
    · dsimp only
      split <;> rfl

theorem updateSelectedPageTimeouts_selected (st : McpState) :
    (updateSelectedPageTimeouts st).2.selectedPage = st.selectedPage := by
  unfold updateSelectedPageTimeouts
  split
  · rfl
  · split
    · rfl
    · dsimp only
      split <;> rfl

theorem updateSelectedPageTimeouts_focusSignal (st : McpState) (q : PageH) :
    ((updateSelectedPageTimeouts st).2.driver q).focusSignal =
      (st.driver q).focusSignal := by
  unfold updateSelectedPageTimeouts
  split
  · rfl
  · split
    · rfl
    · dsimp only
      split
      · dsimp only [updDriver]
        split <;> rfl
      · dsimp only [updDriver]
        split <;> rfl

/-- The focus-map content written by `selectPage`. -/
theorem selectPage_fpc (st : McpState) (q : PageH) :
    (selectPage st q).2.focusedPagePerContext =
      setA st.focusedPagePerContext ((st.driver q).ctx) q := by
  unfold selectPage
  dsimp only
  split
  next e st2 heq =>
    have h := updateSelectedPageTimeouts_fpc
      { st with
        driver := match lookupA st.focusedPagePerContext ((st.driver q).ctx) with
          | some old =>
            if old ≠ q ∧ ¬(st.driver old).closed then
              updDriver st.driver old (fun d => { d with focusSignal := false })
            else st.driver
          | none => st.driver
        focusedPagePerContext := setA st.focusedPagePerContext ((st.driver q).ctx) q
        selectedPage := some q }
    rw [heq] at h
    exact h
  next u st2 heq =>
    have h := updateSelectedPageTimeouts_fpc
      { st with
        driver := match lookupA st.focusedPagePerContext ((st.driver q).ctx) with
          | some old =>
            if old ≠ q ∧ ¬(st.driver old).closed then
              updDriver st.driver old (fun d => { d with focusSignal := false })
            else st.driver
          | none => st.driver
        focusedPagePerContext := setA st.focusedPagePerContext ((st.driver q).ctx) q
        selectedPage := some q }
    rw [heq] at h
    exact h

/-- C5.  Focus exclusivity and cross-context independence: after
`selectPage(Q)` the focus map of Q's browsing context holds exactly Q (any
previously focused page of that context is displaced), and the focus-map
entry of every other context is untouched. -/
theorem selectPage_focus_exclusive_independent (st : McpState) (q : PageH) :
    lookupA (selectPage st q).2.focusedPagePerContext ((st.driver q).ctx) = some q ∧
    ∀ c, c ≠ (st.driver q).ctx →
      lookupA (selectPage st q).2.focusedPagePerContext c =
        lookupA st.focusedPagePerContext c := by
  rw [selectPage_fpc]
  constructor
  · rw [lookupA_setA]
    simp
  · intro c hc
    rw [lookupA_setA]
    simp [Ne.symm hc]

def stC5 : McpState :=
  { pages := [1, 2, 9], mcpPages := [(1, { id := 1 }), (2, { id := 2 }), (9, { id := 3 })],
    selectedPage := some 1, focusedPagePerContext := [(0, 1), (5, 9)],
    driver := fun p => if p = 9 then { ctx := 5 } else { ctx := 0 } }

theorem selectPage_focus_exclusive_independent_witness :
    lookupA (selectPage stC5 2).2.focusedPagePerContext 0 = some 2 ∧
    lookupA (selectPage stC5 2).2.focusedPagePerContext 5 = some 9 :=
  ⟨(selectPage_focus_exclusive_independent stC5 2).1,
    by
      have h := (selectPage_focus_exclusive_independent stC5 2).2 5 (by decide)
      rw [h]
      rfl⟩

/-! ## Claim C6: `assertFocused` raises-iff (corrected)

The code raises only when the focus map *has* an entry for the page's
context and that entry differs from the page; with no entry at all the
assertion passes. -/

def stC6 : McpState :=
  { pages := [1], mcpPages := [(1, { id := 1 })], driver := fun _ => {} }

/-- C6 counterexample: with no focus-map entry for the context, page 1 is
not the focus-map entry, yet `assertPageIsFocused` does *not* fail — the
claim's "in particular" direction is false on the code. -/
theorem assertFocused_no_entry_cex :
    assertPageIsFocused stC6 1 = none ∧
    lookupA stC6.focusedPagePerContext ((stC6.driver 1).ctx) ≠ some 1 :=
  ⟨rfl, by decide⟩

/-- C6 amended.  `assertFocused(P)` fails iff the focus map has an entry
for P's context that differs from P (no entry ⇒ the call passes); on
failure the error names P's page id and the focused page's id. -/
theorem assertFocused_raises_iff (st : McpState) (p : PageH) :
    ((∃ e, assertPageIsFocused st p = some e) ↔
      ∃ f, lookupA st.focusedPagePerContext ((st.driver p).ctx) = some f ∧ f ≠ p) ∧
    ∀ f, lookupA st.focusedPagePerContext ((st.driver p).ctx) = some f → f ≠ p →
      assertPageIsFocused st p =
        some (.focusAssert ((lookupA st.mcpPages p).map McpPage.id)
          ((lookupA st.mcpPages f).map McpPage.id)) := by
  constructor
  · constructor
    · rintro ⟨e, he⟩
      unfold assertPageIsFocused at he
      cases hf : lookupA st.focusedPagePerContext ((st.driver p).ctx) with
      | none =>
        rw [hf] at he
        exact absurd he (by simp)
      | some f =>
        rw [hf] at he
        dsimp only at he
        by_cases hfp : f = p
        · rw [if_neg (fun hne => hne hfp)] at he
          exact absurd he (by simp)
        · exact ⟨f, rfl, hfp⟩
    · rintro ⟨f, hf, hfp⟩
      refine ⟨.focusAssert ((lookupA st.mcpPages p).map McpPage.id)
        ((lookupA st.mcpPages f).map McpPage.id), ?_⟩
      unfold assertPageIsFocused
      rw [hf]
      dsimp only
      rw [if_pos hfp]
  · intro f hf hfp
    unfold assertPageIsFocused
    rw [hf]
    dsimp only
    rw [if_pos hfp]

def stC6b : McpState :=
  { pages := [1, 2], mcpPages := [(1, { id := 1 }), (2, { id := 2 })],
    focusedPagePerContext := [(0, 2)], driver := fun _ => {} }

theorem assertFocused_raises_iff_witness :
    assertPageIsFocused stC6b 1 = some (.focusAssert (some 1) (some 2)) :=
  (assertFocused_raises_iff stC6b 1).2 2 rfl (by decide)

/-! ## Claim C4: unscoped element lookup case analysis (corrected) -/

theorem crossPageSearch_all_none (st : McpState) (uid : Uid)
    (oracle : TSNode → Option Nat) (entries : List (PageH × McpPage))
    (h : ∀ e ∈ entries, e.2.textSnapshot = none) :
    crossPageSearch st uid oracle entries false = (.error .noSnapshotAny, st) := by
  induction entries with
  | nil => rfl
  | cons e rest ih =>
    obtain ⟨P, mp⟩ := e
    have he : mp.textSnapshot = none := h (P, mp) (List.mem_cons_self _ _)
    simp only [crossPageSearch, he]
    exact ih fun e he' => h e (List.mem_cons_of_mem _ he')

theorem crossPageSearch_no_match_true (st : McpState) (uid : Uid)
    (oracle : TSNode → Option Nat) (entries : List (PageH × McpPage))
    (h : ∀ e ∈ entries, ∀ s, e.2.textSnapshot = some s →
      lookupA s.idToNode uid = none) :
    crossPageSearch st uid oracle entries true = (.error .unknownUid, st) := by
  induction entries with
  | nil => rfl
  | cons e rest ih =>
    obtain ⟨P, mp⟩ := e
    cases hs : mp.textSnapshot with
    | none =>
      simp only [crossPageSearch, hs]
      exact ih fun e he => h e (List.mem_cons_of_mem _ he)
    | some snap =>
      have hl := h (P, mp) (List.mem_cons_self _ _) snap hs
      simp only [crossPageSearch, hs, hl]
      exact ih fun e he => h e (List.mem_cons_of_mem _ he)

theorem crossPageSearch_some_no_match (st : McpState) (uid : Uid)
    (oracle : TSNode → Option Nat) (entries : List (PageH × McpPage)) (any : Bool)
    (hall : ∀ e ∈ entries, ∀ s, e.2.textSnapshot = some s →
      lookupA s.idToNode uid = none)
    (hex : ∃ e ∈ entries, e.2.textSnapshot ≠ none) :
    crossPageSearch st uid oracle entries any = (.error .unknownUid, st) := by
  induction entries generalizing any with
  | nil =>
    rcases hex with ⟨e, he, -⟩
    exact absurd he (List.not_mem_nil e)
  | cons e rest ih =>
    obtain ⟨P, mp⟩ := e
    cases hs : mp.textSnapshot with
    | some snap =>
      have hl := hall (P, mp) (List.mem_cons_self _ _) snap hs
      simp only [crossPageSearch, hs, hl]
      exact crossPageSearch_no_match_true st uid oracle rest
        fun e he => hall e (List.mem_cons_of_mem _ he)
    | none =>
      simp only [crossPageSearch, hs]
      refine ih any (fun e he => hall e (List.mem_cons_of_mem _ he)) ?_ 
      rcases hex with ⟨e', he', hne⟩
      rcases List.mem_cons.mp he' with rfl | he'
      · exact absurd hs hne
      · exact ⟨e', he', hne⟩

theorem crossPageSearch_skip_prefix (st : McpState) (uid : Uid)
    (oracle : TSNode → Option Nat) (pre : List (PageH × McpPage)) (P : PageH)
    (mp : McpPage) (post : List (PageH × McpPage)) (any any' : Bool)
    (snap : TextSnapshot) (node : TSNode)
    (hpre : ∀ e ∈ pre, ∀ s, e.2.textSnapshot = some s →
      lookupA s.idToNode uid = none)
    (hsnap : mp.textSnapshot = some snap)
    (hnode : lookupA snap.idToNode uid = some node) :
    crossPageSearch st uid oracle (pre ++ (P, mp) :: post) any =
      crossPageSearch st uid oracle ((P, mp) :: post) any' := by
  induction pre generalizing any with
  | nil =>
    simp only [List.nil_append]
    simp only [crossPageSearch, hsnap, hnode]
  | cons e pre ih =>
    obtain ⟨Q, mq⟩ := e
    cases hs : mq.textSnapshot with
    | none =>
      simp only [List.cons_append, crossPageSearch, hs]
      exact ih any fun e he => hpre e (List.mem_cons_of_mem _ he)
    | some s =>
      have hl := hpre (Q, mq) (List.mem_cons_self _ _) s hs
      simp only [List.cons_append, crossPageSearch, hs, hl]
      exact ih true fun e he => hpre e (List.mem_cons_of_mem _ he)

theorem McpState_set_selected_self (st : McpState) (p : PageH)
    (h : st.selectedPage = some p) : { st with selectedPage := some p } = st := by
  cases st
  simp only at h
  simp [h]

/-- C4 amended.  Unscoped `getElementByUid(uid)` case analysis: (i) no page
has a snapshot ⇒ no-snapshot error; (ii) snapshots exist but none holds the
uid ⇒ unknown-uid error; (iii) uid found first on page P whose context's
focus-map entry is a different page f ⇒ focus-violation naming P and f;
(iv) found on P and P is the focus-map entry ⇒ the global selected pointer
is realigned to P and the element is resolved through the driver; (v) found
on P with *no* focus-map entry for P's context ⇒ the fallback reads the
globally selected page: focus-violation naming P and it when that read
succeeds, but the selected-pointer error itself (not a focus violation) when
the global selected pointer is unset or closed, and a missing-record error
when it has no page record. -/
theorem getElementByUid_unscoped_cases (st : McpState) (uid : Uid)
    (oracle : TSNode → Option Nat) :
    ((∀ e ∈ st.mcpPages, e.2.textSnapshot = none) →
      getElementByUid st uid none oracle = (.error .noSnapshotAny, st)) ∧
    ((∀ e ∈ st.mcpPages, ∀ s, e.2.textSnapshot = some s →
        lookupA s.idToNode uid = none) →
      (∃ e ∈ st.mcpPages, e.2.textSnapshot ≠ none) →
      getElementByUid st uid none oracle = (.error .unknownUid, st)) ∧
    (∀ pre P mp post snap node,
      st.mcpPages = pre ++ (P, mp) :: post →
      (∀ e ∈ pre, ∀ s, e.2.textSnapshot = some s →
        lookupA s.idToNode uid = none) →
      mp.textSnapshot = some snap →
      lookupA snap.idToNode uid = some node →
      ((∀ f, lookupA st.focusedPagePerContext ((st.driver P).ctx) = some f → f ≠ P →
        getElementByUid st uid none oracle =
          (.error (.focusViolation mp.id ((lookupA st.mcpPages f).map McpPage.id)),
            st)) ∧
      (lookupA st.focusedPagePerContext ((st.driver P).ctx) = some P →
        getElementByUid st uid none oracle =
          (resolveElementHandle oracle node uid, { st with selectedPage := some P })) ∧
      (lookupA st.focusedPagePerContext ((st.driver P).ctx) = none →
        ∀ sp smp, getSelectedPage st = .ok sp → lookupA st.mcpPages sp = some smp →
          getElementByUid st uid none oracle =
            (.error (.focusViolation mp.id (some smp.id)), st)) ∧
      (lookupA st.focusedPagePerContext ((st.driver P).ctx) = none →
        ∀ err, getSelectedPage st = .error err →
          getElementByUid st uid none oracle = (.error err, st)) ∧
      (lookupA st.focusedPagePerContext ((st.driver P).ctx) = none →
        ∀ sp, getSelectedPage st = .ok sp → lookupA st.mcpPages sp = none →
          getElementByUid st uid none oracle = (.error .noMcpPage, st)))) := by
  refine ⟨?_, ?_, ?_⟩
  · intro h
    unfold getElementByUid
    exact crossPageSearch_all_none st uid oracle st.mcpPages h
  · intro hall hex
    unfold getElementByUid
    exact crossPageSearch_some_no_match st uid oracle st.mcpPages false hall hex
  · intro pre P mp post snap node hmcp hpre hsnap hnode
    have hbase : getElementByUid st uid none oracle =
        crossPageSearch st uid oracle ((P, mp) :: post) false := by
      unfold getElementByUid
      rw [hmcp]
      exact crossPageSearch_skip_prefix st uid oracle pre P mp post false false
        snap node hpre hsnap hnode
    refine ⟨?_, ?_, ?_, ?_, ?_⟩
    · intro f hf hfP
      rw [hbase]
      simp only [crossPageSearch, hsnap, hnode, hf]
      rw [if_pos hfP]
    · intro hf
      rw [hbase]
      simp only [crossPageSearch, hsnap, hnode, hf]
      rw [if_neg (fun hne => hne rfl)]
      by_cases hsel : st.selectedPage = some P
      · rw [if_neg (fun hne => hne hsel), McpState_set_selected_self st P hsel]
      · rw [if_pos hsel]
    · intro hf sp smp hsp hsmp
      rw [hbase]
      simp only [crossPageSearch, hsnap, hnode, hf, hsp, hsmp]
    · intro hf err herr
      rw [hbase]
      simp only [crossPageSearch, hsnap, hnode, hf, herr]
    · intro hf sp hsp hsmp
      rw [hbase]
      simp only [crossPageSearch, hsnap, hnode, hf, hsp, hsmp]

/-- Concrete snapshot node and state for the C4 counterexample: page 1
holds the uid, its context has no focus-map entry, and the globally selected
page is closed. -/
def wNodeC4 : TSNode := .mk "button" (some "Ok") none ⟨"L", 1⟩ ⟨1, 0⟩ []

def wSnapC4 : TextSnapshot :=
  { root := wNodeC4, snapshotId := 1, idToNode := [(⟨1, 0⟩, wNodeC4)],
    hasSelectedElement := false, verbose := false }

def stC4 : McpState :=
  { pages := [1], mcpPages := [(1, { id := 1, textSnapshot := some wSnapC4 })],
    selectedPage := some 1, focusedPagePerContext := [],
    driver := fun _ => { closed := true } }

/-- C4 counterexample: uid found on page 1, no focus-map entry for its
context; the claim predicts a focus violation naming the fallback
globally-selected page, but the code throws the selected-page-closed error
instead because the fallback read itself fails. -/
theorem getElementByUid_unscoped_fallback_cex :
    getElementByUid stC4 ⟨1, 0⟩ none (fun _ => none) =
      (.error .selectedPageClosed, stC4) ∧
    (Except.error .selectedPageClosed : Except McpError Nat) ≠
      .error (.focusViolation 1 (some 1)) :=
  ⟨rfl, by simp⟩

def wSnapC4w : TextSnapshot :=
  { root := wNodeC4, snapshotId := 1, idToNode := [(⟨1, 0⟩, wNodeC4)],
    hasSelectedElement := false, verbose := false }

def stC4w : McpState :=
  { pages := [1, 2],
    mcpPages := [(1, { id := 1, textSnapshot := some wSnapC4w }), (2, { id := 2 })],
    selectedPage := some 2, focusedPagePerContext := [(0, 2)],
    driver := fun _ => {} }

theorem getElementByUid_unscoped_cases_witness :
    getElementByUid stC4w ⟨1, 0⟩ none (fun _ => none) =
      (.error (.focusViolation 1 (some 2)), stC4w) :=
  ((getElementByUid_unscoped_cases stC4w ⟨1, 0⟩ (fun _ => none)).2.2
    [] 1 { id := 1, textSnapshot := some wSnapC4w } [(2, { id := 2 })]
    wSnapC4w wNodeC4 rfl (by intro e he; exact absurd he (List.not_mem_nil e))
    rfl rfl).1 2 rfl (by decide)

/-! ## Claim C7: emulate and the timeout recomputation (corrected)

`emulate(options, targetPage?)` — tri-state option fields: outer `none` is
JS `undefined` (field untouched), `some none` is JS `null` (restore driver
default / delete from the settings record).  The driver-side emulation
primitives (`emulateNetworkConditions`, `emulateCPUThrottling`,
`setGeolocation`, `setUserAgent`, `emulateMediaFeatures`, `setViewport`) are
external effects the manager never reads back and are untracked; the two
timeout setters are tracked in the driver table. -/

structure EmulateOptions where
  networkConditions : Option (Option String) := none
  cpuThrottlingRate : Option (Option ℚ) := none
  geolocation : Option (Option GeolocationOptions) := none
  userAgent : Option (Option String) := none
  colorScheme : Option (Option String) := none
  viewport : Option (Option Viewport) := none

/-- The keys of puppeteer's `PredefinedNetworkConditions` table. -/
def predefinedNetworkConditions : List String :=
  ["Slow 3G", "Fast 3G", "Slow 4G", "Fast 4G"]

def applyNetworkConditions (s : EmulationSettings) (nc : Option String) :
    EmulationSettings :=
  match nc with
  | none => { s with networkConditions := none }
  | some c =>
    if c = "No emulation" then { s with networkConditions := none }
    else if c = "Offline" then { s with networkConditions := some "Offline" }
    else if c ∈ predefinedNetworkConditions then { s with networkConditions := some c }
    else s

def applyCpuThrottling (s : EmulationSettings) (r : Option ℚ) : EmulationSettings :=
  match r with
  | none => { s with cpuThrottlingRate := none }
  | some r => { s with cpuThrottlingRate := some r }

def applyGeolocation (s : EmulationSettings) (g : Option GeolocationOptions) :
    EmulationSettings :=
  match g with
  | none => { s with geolocation := none }
  | some g => { s with geolocation := some g }

def applyUserAgent (s : EmulationSettings) (ua : Option String) : EmulationSettings :=
  match ua with
  | none => { s with userAgent := none }
  | some ua => { s with userAgent := some ua }

def applyColorScheme (s : EmulationSettings) (c : Option String) : EmulationSettings :=
  match c with
  | none => { s with colorScheme := none }
  | some c =>
    if c = "auto" then { s with colorScheme := none }
    else { s with colorScheme := some c }

def applyViewport (s : EmulationSettings) (v : Option Viewport) : EmulationSettings :=
  match v with
  | none => { s with viewport := none }
  | some v => { s with viewport := some (mergeViewport v) }

def emulate (st : McpState) (options : EmulateOptions) (targetPage : Option PageH) :
    Except McpError Unit × McpState :=
  match (match targetPage with
         | some q => Except.ok q
         | none => getSelectedPage st) with
  | .error e => (.error e, st)
  | .ok page =>
    match lookupA st.mcpPages page with
    | none => (.error .noMcpPage, st)
    | some mcpPage =>
      let s0 := mcpPage.emulationSettings
      let s1 := match options.networkConditions with
        | none => s0
        | some nc => applyNetworkConditions s0 nc
      let s2 := match options.cpuThrottlingRate with
        | none => s1
        | some r => applyCpuThrottling s1 r
      let s3 := match options.geolocation with
        | none => s2
        | some g => applyGeolocation s2 g
      let s4 := match options.userAgent with
        | none => s3
        | some ua => applyUserAgent s3 ua
      let s5 := match options.colorScheme with
        | none => s4
        | some c => applyColorScheme s4 c
      let s6 := match options.viewport with
        | none => s5
        | some v => applyViewport s5 v
      let st1 := { st with
        mcpPages := setA st.mcpPages page { mcpPage with emulationSettings := s6 } }
      if options.networkConditions.isSome || options.cpuThrottlingRate.isSome then
        updateSelectedPageTimeouts st1
      else (.ok (), st1)

def stC7 : McpState :=
  { pages := [1, 2], mcpPages := [(1, { id := 1 }), (2, { id := 2 })],
    selectedPage := some 1, focusedPagePerContext := [(0, 1)],
    driver := fun _ => {} }

/-- C7 counterexample: `emulate({cpuThrottlingRate: 4}, page2)` with page 1
selected leaves page 2's default timeout at its prior driver value (30000)
even though page 2's cpu-throttle rate is now 4 — the recomputation targets
the *selected* page, so the emulated page's timeout is not
`5000 * rate`. -/
theorem emulate_timeout_cex :
    ((emulate stC7 { cpuThrottlingRate := some (some 4) } (some 2)).2.driver 2).defaultTimeout
        = 30000 ∧
    (lookupA (emulate stC7 { cpuThrottlingRate := some (some 4) } (some 2)).2.mcpPages
        2).map McpPage.cpuThrottlingRate = some 4 ∧
    (30000 : ℚ) ≠ 5000 * 4 :=
  ⟨rfl, rfl, by norm_num⟩

theorem getCpuThrottlingRateE_spec (s : McpState) (p : PageH) (mp : McpPage)
    (hreq : s.requestPage = none) (hsel : s.selectedPage = some p)
    (hopen : (s.driver p).closed = false) (hmp : lookupA s.mcpPages p = some mp) :
    getCpuThrottlingRateE s = .ok mp.cpuThrottlingRate := by
  unfold getCpuThrottlingRateE resolveTargetPage getSelectedPage getMcpPageE
  rw [hreq, hsel]
  simp [hmp, hopen, bind, Except.bind, Functor.map, Except.map, pure, Except.pure]

theorem getNetworkConditionsE_spec (s : McpState) (p : PageH) (mp : McpPage)
    (hreq : s.requestPage = none) (hsel : s.selectedPage = some p)
    (hopen : (s.driver p).closed = false) (hmp : lookupA s.mcpPages p = some mp) :
    getNetworkConditionsE s = .ok mp.networkConditions := by
  unfold getNetworkConditionsE resolveTargetPage getSelectedPage getMcpPageE
  rw [hreq, hsel]
  simp [hmp, hopen, bind, Except.bind, Functor.map, Except.map, pure, Except.pure]

theorem updateSelectedPageTimeouts_mcpPages (st : McpState) :
    (updateSelectedPageTimeouts st).2.mcpPages = st.mcpPages := by
  unfold updateSelectedPageTimeouts
  split
  · rfl
  · split
    · rfl
    · dsimp only
      split <;> rfl

theorem updateSelectedPageTimeouts_spec (s : McpState) (p : PageH) (mp : McpPage)
    (hreq : s.requestPage = none) (hsel : s.selectedPage = some p)
    (hopen : (s.driver p).closed = false) (hmp : lookupA s.mcpPages p = some mp) :
    (updateSelectedPageTimeouts s).1 = .ok () ∧
    ((updateSelectedPageTimeouts s).2.driver p).defaultTimeout =
      DEFAULT_TIMEOUT * mp.cpuThrottlingRate ∧
    ((updateSelectedPageTimeouts s).2.driver p).navTimeout =
      NAVIGATION_TIMEOUT * getNetworkMultiplierFromString mp.networkConditions := by
  have hgs : getSelectedPage s = .ok p := by
    simp [getSelectedPage, hsel, hopen]
  have hcpu := getCpuThrottlingRateE_spec s p mp hreq hsel hopen hmp
  have hnet : getNetworkConditionsE { s with driver := updDriver s.driver p fun d => { d with defaultTimeout := DEFAULT_TIMEOUT * mp.cpuThrottlingRate } } = .ok mp.networkConditions := by
    refine getNetworkConditionsE_spec _ p mp hreq hsel ?_ hmp
    simp [updDriver, hopen]
  unfold updateSelectedPageTimeouts
  rw [hgs, hcpu]
  dsimp only
  rw [hnet]
  dsimp only
  refine ⟨rfl, ?_, ?_⟩
  · simp [updDriver]
  · simp [updDriver]

theorem emulate_tail (st : McpState) (p : PageH) (mpNew : McpPage)
    (hreq : st.requestPage = none) (hsel : st.selectedPage = some p)
    (hopen : (st.driver p).closed = false) :
    ∃ mp', lookupA (updateSelectedPageTimeouts
        { st with mcpPages := setA st.mcpPages p mpNew }).2.mcpPages p = some mp' ∧
      (updateSelectedPageTimeouts
        { st with mcpPages := setA st.mcpPages p mpNew }).1 = .ok () ∧
      ((updateSelectedPageTimeouts
        { st with mcpPages := setA st.mcpPages p mpNew }).2.driver p).defaultTimeout =
        DEFAULT_TIMEOUT * mp'.cpuThrottlingRate ∧
      ((updateSelectedPageTimeouts
        { st with mcpPages := setA st.mcpPages p mpNew }).2.driver p).navTimeout =
        NAVIGATION_TIMEOUT * getNetworkMultiplierFromString mp'.networkConditions := by
  have hmp1 : lookupA ({ st with
      mcpPages := setA st.mcpPages p mpNew } : McpState).mcpPages p = some mpNew := by
    show lookupA (setA st.mcpPages p mpNew) p = some mpNew
    rw [lookupA_setA]
    simp
  obtain ⟨h1, h2, h3⟩ := updateSelectedPageTimeouts_spec
    { st with mcpPages := setA st.mcpPages p mpNew } p mpNew hreq hsel hopen hmp1
  refine ⟨mpNew, ?_, h1, h2, h3⟩
  rw [updateSelectedPageTimeouts_mcpPages]
  exact hmp1

/-- C7 amended.  An emulate call that sets or clears `networkConditions` or
`cpuThrottlingRate` recomputes the timeouts on the *globally selected* page,
with the multipliers read from the request-page-or-selected-page record.
When the emulated page is the selected page (and no request page overrides
the lookup) this yields the claimed formula: default timeout
`5000 * cpuRate` and navigation timeout `10000 * networkMultiplier`, both
w.r.t. the page's post-call settings (rate 1 when unset; the multiplier
table maps Fast 4G → 1, Slow 4G → 2.5, Fast 3G → 5, Slow 3G → 10, anything
else → 1). -/
theorem emulate_recomputes_selected_timeouts (st : McpState)
    (options : EmulateOptions) (targetPage : Option PageH) (p : PageH) (mp : McpPage)
    (hreq : st.requestPage = none) (hsel : st.selectedPage = some p)
    (hopen : (st.driver p).closed = false)
    (htarget : targetPage = none ∨ targetPage = some p)
    (hmp : lookupA st.mcpPages p = some mp)
    (htouch : options.networkConditions.isSome || options.cpuThrottlingRate.isSome) :
    ∃ mp', lookupA (emulate st options targetPage).2.mcpPages p = some mp' ∧
      (emulate st options targetPage).1 = .ok () ∧
      ((emulate st options targetPage).2.driver p).defaultTimeout =
        DEFAULT_TIMEOUT * mp'.cpuThrottlingRate ∧
      ((emulate st options targetPage).2.driver p).navTimeout =
        NAVIGATION_TIMEOUT * getNetworkMultiplierFromString mp'.networkConditions := by
  have hpage : (match targetPage with
      | some q => Except.ok q
      | none => getSelectedPage st) = Except.ok p := by
    rcases htarget with rfl | rfl
    · simp [getSelectedPage, hsel, hopen]
    · rfl
  unfold emulate
  rw [hpage]
  dsimp only
  rw [hmp]
  dsimp only
  rw [htouch]
  exact emulate_tail st p _ hreq hsel hopen

def wOptsC7 : EmulateOptions :=
  { networkConditions := some (some "Slow 4G"), cpuThrottlingRate := some (some 4) }

def wMpC7 : McpPage :=
  { id := 1, emulationSettings :=
    { networkConditions := some "Slow 4G", cpuThrottlingRate := some 4 } }

theorem emulate_recomputes_selected_timeouts_witness :
    ((emulate stC7 wOptsC7 none).2.driver 1).defaultTimeout = 20000 ∧
    ((emulate stC7 wOptsC7 none).2.driver 1).navTimeout = 25000 := by
  obtain ⟨mp', hmp', -, hdef, hnav⟩ := emulate_recomputes_selected_timeouts stC7
    wOptsC7 none 1 { id := 1 } rfl rfl rfl (Or.inl rfl) rfl rfl
  have hsome : (some mp' : Option McpPage) = some wMpC7 := by
    rw [← hmp']
    rfl
  have he : mp' = wMpC7 := Option.some_inj.mp hsome
  subst he
  refine ⟨?_, ?_⟩
  · rw [hdef]
    norm_num [DEFAULT_TIMEOUT, McpPage.cpuThrottlingRate, wMpC7]
  · rw [hnav]
    norm_num [NAVIGATION_TIMEOUT, McpPage.networkConditions, wMpC7,
      getNetworkMultiplierFromString]

/-! ## Claim C8: background page creation and the focus signal (corrected)

`createPagesSnapshot` re-enumerates driver pages; the enumeration
(`browser.pages()`, `browser.browserContexts()`) is the external input
`DriverView`.  `detectOpenDevToolsWindows` only fills the untracked
DevTools-window pairing and is omitted.  `newPage` creates the page in the
driver (modelled as installing a fresh driver entry; the `background` flag
only controls driver-side window activation, which is outside the tracked
state — the emulated-focus signal is only ever touched by
`emulateFocusedPage`, i.e. by `selectPage`). -/

structure DriverView where
  allPages : List PageH
  browserContexts : List (CtxH × Bool)

def autoDiscover (defaultCtx : CtxH) (known : List CtxH) :
    List (CtxH × Bool) → List (String × CtxH) → List (CtxH × String) → Nat →
      List (String × CtxH) × List (CtxH × String) × Nat
  | [], iso, c2n, nid => (iso, c2n, nid)
  | (ctx, closed) :: rest, iso, c2n, nid =>
    if ctx ≠ defaultCtx ∧ closed = false ∧ ctx ∉ known then
      autoDiscover defaultCtx known rest
        (setA iso ("isolated-context-" ++ toString nid) ctx)
        (setA c2n ctx ("isolated-context-" ++ toString nid)) (nid + 1)
    else autoDiscover defaultCtx known rest iso c2n nid

def pageCtxNames (driver : PageH → DriverPage) (c2n : List (CtxH × String)) :
    List PageH → List (PageH × String)
  | [] => []
  | p :: ps =>
    match lookupA c2n (driver p).ctx with
    | some n => (p, n) :: pageCtxNames driver c2n ps
    | none => pageCtxNames driver c2n ps

def ensureMcpPages (icn : List (PageH × String)) :
    List PageH → List (PageH × McpPage) → Nat → List (PageH × McpPage) × Nat
  | [], mps, nid => (mps, nid)
  | p :: ps, mps, nid =>
    match lookupA mps p with
    | some mp =>
      ensureMcpPages icn ps
        (setA mps p { mp with isolatedContextName := lookupA icn p }) nid
    | none =>
      ensureMcpPages icn ps
        (setA mps p { id := nid, isolatedContextName := lookupA icn p }) (nid + 1)

def createPagesSnapshot (st : McpState) (dv : DriverView) :
    Except McpError Unit × McpState :=
  let known := st.isolatedContexts.map Prod.snd
  let c2n0 := st.isolatedContexts.foldl (fun acc nc => setA acc nc.2 nc.1) []
  let adr := autoDiscover st.defaultCtx known dv.browserContexts
    st.isolatedContexts c2n0 st.nextIsolatedContextId
  let icn := pageCtxNames st.driver adr.2.1 dv.allPages
  let emp := ensureMcpPages icn dv.allPages st.mcpPages st.nextPageId
  let mps := emp.1.filter fun e => decide (e.1 ∈ dv.allPages)
  let fpc := st.focusedPagePerContext.filter fun e => decide (e.2 ∈ dv.allPages)
  let pages := dv.allPages.filter fun p =>
    st.experimentalDevToolsDebugging || !(st.driver p).isDevtools
  let st1 : McpState := { st with
    isolatedContexts := adr.1
    nextIsolatedContextId := adr.2.2
    mcpPages := mps
    nextPageId := emp.2
    focusedPagePerContext := fpc
    pages := pages }
  let noSel : Bool := match st1.selectedPage with
    | none => true
    | some sel => decide (sel ∉ pages)
  if noSel then
    match pages with
    | p0 :: _ => selectPage st1 p0
    | [] => (.ok (), st1)
  else (.ok (), st1)

def freshDriverPage (ctx : CtxH) : DriverPage := { ctx := ctx }

def newPage (st : McpState) (background : Bool) (isolatedContextName : Option String)
    (newPageHandle : PageH) (newCtxHandle : CtxH) (dv : DriverView) :
    Except McpError PageH × McpState :=
  let st0 : McpState := match isolatedContextName with
    | some nm =>
      match lookupA st.isolatedContexts nm with
      | some ctx =>
        { st with driver := updDriver st.driver newPageHandle fun _ => freshDriverPage ctx }
      | none =>
        { st with
          isolatedContexts := setA st.isolatedContexts nm newCtxHandle
          driver := (updDriver st.driver newPageHandle fun _ => freshDriverPage newCtxHandle) }
    | none =>
      { st with driver := (updDriver st.driver newPageHandle fun _ => freshDriverPage st.defaultCtx) }
  match createPagesSnapshot st0 dv with
  | (.error e, st1) => (.error e, st1)
  | (.ok _, st1) =>
    match selectPage st1 newPageHandle with
    | (.error e, st2) => (.error e, st2)
    | (.ok _, st2) => (.ok newPageHandle, st2)

def stC8 : McpState :=
  { pages := [1, 2], mcpPages := [(1, { id := 1 }), (2, { id := 2 })],
    selectedPage := some 1, focusedPagePerContext := [(0, 1)], nextPageId := 3,
    driver := fun p => if p = 1 then { focusSignal := true } else {} }

/-- C8 counterexample: page 1 is focused (signal on) in the default
context; `createPage(background=true)` sends a defocus signal to page 1 —
the previously focused page's emulated-focus signal is *not* left
unchanged. -/
theorem newPage_background_defocus_cex :
    (stC8.driver 1).focusSignal = true ∧
    ((newPage stC8 true none 3 9 ⟨[1, 2, 3], [(0, false)]⟩).2.driver 1).focusSignal
      = false :=
  ⟨rfl, by decide⟩

theorem lookupA_filter_of_lookupA {α β : Type} [DecidableEq α] (l : List (α × β))
    (q : α × β → Bool) (c : α) (v : β)
    (h : lookupA l c = some v) (hq : q (c, v) = true) :
    lookupA (l.filter q) c = some v := by
  induction l with
  | nil => simp [lookupA] at h
  | cons e l ih =>
    obtain ⟨a, b⟩ := e
    by_cases hac : a = c
    · subst hac
      simp [lookupA] at h
      subst h
      rw [List.filter_cons_of_pos hq]
      simp [lookupA]
    · simp only [lookupA, hac, if_false] at h
      by_cases hqe : q (a, b) = true
      · rw [List.filter_cons_of_pos hqe]
        simp only [lookupA, hac, if_false]
        exact ih h
      · rw [List.filter_cons_of_neg (by simp [hqe])]
        exact ih h

theorem selectPage_selected (st : McpState) (q : PageH) :
    (selectPage st q).2.selectedPage = some q := by
  unfold selectPage
  dsimp only
  split
  next e st2 heq =>
    have h := updateSelectedPageTimeouts_selected { st with
      driver := match lookupA st.focusedPagePerContext ((st.driver q).ctx) with
        | some old =>
          if old ≠ q ∧ ¬(st.driver old).closed then
            updDriver st.driver old (fun d => { d with focusSignal := false })
          else st.driver
        | none => st.driver
      focusedPagePerContext := setA st.focusedPagePerContext ((st.driver q).ctx) q
      selectedPage := some q }
    rw [heq] at h
    exact h
  next u st2 heq =>
    have h := updateSelectedPageTimeouts_selected { st with
      driver := match lookupA st.focusedPagePerContext ((st.driver q).ctx) with
        | some old =>
          if old ≠ q ∧ ¬(st.driver old).closed then
            updDriver st.driver old (fun d => { d with focusSignal := false })
          else st.driver
        | none => st.driver
      focusedPagePerContext := setA st.focusedPagePerContext ((st.driver q).ctx) q
      selectedPage := some q }
    rw [heq] at h
    exact h

/-- The defocus signal of `selectPage`: the previously focused, distinct,
open page of the context ends with its emulated-focus signal cleared. -/
theorem selectPage_defocus (st : McpState) (q old : PageH)
    (hold : lookupA st.focusedPagePerContext ((st.driver q).ctx) = some old)
    (hne : old ≠ q) (hopen : (st.driver old).closed = false) :
    ((selectPage st q).2.driver old).focusSignal = false := by
  unfold selectPage
  dsimp only
  rw [hold]
  dsimp only
  rw [if_pos ⟨hne, by simp [hopen]⟩]
  split
  next e st2 heq =>
    have h := updateSelectedPageTimeouts_focusSignal { st with
      driver := updDriver st.driver old (fun d => { d with focusSignal := false })
      focusedPagePerContext := setA st.focusedPagePerContext ((st.driver q).ctx) q
      selectedPage := some q } old
    rw [heq] at h
    rw [h]
    simp [updDriver]
  next u st2 heq =>
    have h := updateSelectedPageTimeouts_focusSignal { st with
      driver := updDriver st.driver old (fun d => { d with focusSignal := false })
      focusedPagePerContext := setA st.focusedPagePerContext ((st.driver q).ctx) q
      selectedPage := some q } old
    rw [heq] at h
    have h2 : (st2.driver old).focusSignal = false := by
      rw [h]
      simp [updDriver]
    simp [updDriver, hne, h2]

theorem createPagesSnapshot_no_reselect (st : McpState) (dv : DriverView) (s : PageH)
    (hsel : st.selectedPage = some s) (hsall : s ∈ dv.allPages)
    (hsdev : (st.driver s).isDevtools = false) :
    (createPagesSnapshot st dv).1 = .ok () ∧
    (createPagesSnapshot st dv).2.driver = st.driver ∧
    (createPagesSnapshot st dv).2.selectedPage = st.selectedPage ∧
    (createPagesSnapshot st dv).2.focusedPagePerContext =
      st.focusedPagePerContext.filter (fun e => decide (e.2 ∈ dv.allPages)) ∧
    (createPagesSnapshot st dv).2.defaultCtx = st.defaultCtx := by
  have hmem : s ∈ dv.allPages.filter
      (fun p => st.experimentalDevToolsDebugging || !(st.driver p).isDevtools) :=
    List.mem_filter.mpr ⟨hsall, by rw [hsdev]; simp⟩
  unfold createPagesSnapshot
  dsimp only
  rw [hsel]
  dsimp only
  rw [decide_eq_false (fun hn => hn hmem)]
  rw [if_neg Bool.false_ne_true]
  exact ⟨rfl, rfl, rfl, rfl, rfl⟩

/-- C8 corrected.  `createPage(background=true)` in the default context does
*not* leave the previously focused page's emulated-focus signal unchanged:
the unconditional `selectPage` on the new page sends a defocus signal to the
previously focused page F, installs the new page as the focus-map entry of
the default context, and makes it the globally selected page. -/
theorem newPage_background_transfers_focus (st : McpState) (p : PageH) (ctxNew : CtxH)
    (dv : DriverView) (F s : PageH)
    (hF : lookupA st.focusedPagePerContext st.defaultCtx = some F)
    (hFin : F ∈ dv.allPages) (hFopen : (st.driver F).closed = false) (hFp : F ≠ p)
    (hsel : st.selectedPage = some s) (hsall : s ∈ dv.allPages)
    (hsdev : (st.driver s).isDevtools = false) (hsp : s ≠ p) :
    ((newPage st true none p ctxNew dv).2.driver F).focusSignal = false ∧
    (newPage st true none p ctxNew dv).2.selectedPage = some p ∧
    lookupA (newPage st true none p ctxNew dv).2.focusedPagePerContext
      st.defaultCtx = some p := by
  obtain ⟨hok, hdrv, hsel1, hfpc1, hdc1⟩ := createPagesSnapshot_no_reselect
    { st with driver := (updDriver st.driver p fun _ => freshDriverPage st.defaultCtx) }
    dv s hsel hsall (by simp [updDriver, hsp, hsdev])
  have hsplit : createPagesSnapshot
      { st with driver := (updDriver st.driver p fun _ => freshDriverPage st.defaultCtx) }
      dv =
      (.ok (), (createPagesSnapshot
        { st with driver := (updDriver st.driver p fun _ => freshDriverPage st.defaultCtx) }
        dv).2) := by
    rw [← hok]
  unfold newPage
  dsimp only
  rw [hsplit]
  dsimp only
  generalize hgen : (createPagesSnapshot
    { st with driver := (updDriver st.driver p fun _ => freshDriverPage st.defaultCtx) }
    dv).2 = st1 at hdrv hsel1 hfpc1 hdc1 ⊢
  have hctx : ((st1.driver) p).ctx = st.defaultCtx := by
    rw [hdrv]
    simp [updDriver, freshDriverPage]
  have hfocus : lookupA st1.focusedPagePerContext ((st1.driver p).ctx) = some F := by
    rw [hctx, hfpc1]
    exact lookupA_filter_of_lookupA _ _ _ _ hF (by simp [hFin])
  have hFopen1 : (st1.driver F).closed = false := by
    rw [hdrv]
    simp [updDriver, hFp, hFopen]
  have hd := selectPage_defocus st1 p F hfocus hFp hFopen1
  have hs2 := selectPage_selected st1 p
  have hf2 : lookupA (selectPage st1 p).2.focusedPagePerContext st.defaultCtx
      = some p := by
    rw [selectPage_fpc, hctx, lookupA_setA]
    simp
  cases hsp2 : selectPage st1 p with
  | mk r st2 =>
    rw [hsp2] at hd hs2 hf2
    cases r <;> exact ⟨hd, hs2, hf2⟩

theorem newPage_background_transfers_focus_witness :
    ((newPage stC8 true none 3 9 ⟨[1, 2, 3], [(0, false)]⟩).2.driver 1).focusSignal
        = false ∧
    (newPage stC8 true none 3 9 ⟨[1, 2, 3], [(0, false)]⟩).2.selectedPage = some 3 ∧
    lookupA (newPage stC8 true none 3 9
      ⟨[1, 2, 3], [(0, false)]⟩).2.focusedPagePerContext 0 = some 3 :=
  newPage_background_transfers_focus stC8 3 9 ⟨[1, 2, 3], [(0, false)]⟩ 1 1
    rfl (by decide) rfl (by decide) rfl (by decide) rfl (by decide)

/-! ## Claim C9: the option-node value special case (corrected) -/

mutual
/-- The input tree with the per-node option-value rule of `assignIds`
(`optionValue`) applied at every node. -/
def fixValues : SAXNode → SAXNode
  | .mk r n v k cs => .mk r n (optionValue r n v) k (fixValuesList cs)
def fixValuesList : List SAXNode → List SAXNode
  | [] => []
  | t :: ts => fixValues t :: fixValuesList ts
end

mutual
/-- Forget the assigned ids of a snapshot tree. -/
def stripIds : TSNode → SAXNode
  | .mk r n v k _ cs => .mk r n v k (stripIdsList cs)
def stripIdsList : List TSNode → List SAXNode
  | [] => []
  | t :: ts => stripIds t :: stripIdsList ts
end

mutual
theorem strip_assign_node (sid : Nat) (t : SAXNode) (st : AssignState) :
    stripIds (assignIds sid t st).1 = fixValues t := by
  cases t with
  | mk r n v k cs =>
    simp only [assignIds, stripIds, fixValues]
    rw [strip_assign_list]
theorem strip_assign_list (sid : Nat) (ts : List SAXNode) (st : AssignState) :
    stripIdsList (assignIdsList sid ts st).1 = fixValuesList ts := by
  cases ts with
  | nil => rfl
  | cons t ts =>
    simp only [assignIdsList, stripIdsList, fixValuesList]
    rw [strip_assign_node, strip_assign_list]
end

def wOptC9 : SAXNode := .mk "option" (some "A") (some "B") ⟨"L", 20⟩ []

/-- C9 counterexample: an option node whose tree exposes value "B" and whose
accessible name is "A" is captured with value "A" — the exposed value is
*not* kept; the name unconditionally overwrites it. -/
theorem option_value_overwritten_cex :
    (captureSnapshot [] 1 wOptC9).root.value = some "A" ∧
    some "A" ≠ (some "B" : Option String) :=
  ⟨rfl, by decide⟩

/-- C9 amended.  The id-stripped content of a capture equals the input tree
with `optionValue` applied at every node: a node with role `option` and a
non-empty accessible name gets the name as its snapshot value (overwriting
any value the tree exposed); with an absent or empty name the tree's value
is kept; non-option nodes keep their value. -/
theorem capture_option_value_from_name (sticky : List (BackendKey × Uid)) (sid : Nat)
    (t : SAXNode) :
    stripIds (captureSnapshot sticky sid t).root = fixValues t :=
  strip_assign_node sid t ⟨sticky, 0, [], []⟩

/-! ## The full `createTextSnapshot` wiring

Ties the per-page `captureSnapshot` into the session state: resolves the
target page, allocates the strictly-increasing snapshot id (the source of
C2's `StickyBound`/`sid1 < sid2` hypotheses), installs the snapshot and the
garbage-collected sticky map on the page record, and resolves the
DevTools-selected element. -/

mutual
/-- The stack-based (`queue.pop()`) search of `resolveCdpElementId`:
depth-first, children visited last-to-first. -/
def findRL (bid : Nat) : TSNode → Option Uid
  | .mk _ _ _ k i cs =>
    if k.backendNodeId = bid then some i else findRLList bid cs
def findRLList (bid : Nat) : List TSNode → Option Uid
  | [] => none
  | t :: ts =>
    match findRLList bid ts with
    | some u => some u
    | none => findRL bid t
end

def resolveCdpElementIdIn : List TextSnapshot → Nat → Option Uid
  | [], _ => none
  | s :: ss, bid =>
    match findRL bid s.root with
    | some u => some u
    | none => resolveCdpElementIdIn ss bid

/-- `resolveCdpElementId(cdpBackendNodeId, page?)`. -/
def resolveCdpElementId (st : McpState) (cdpBackendNodeId : Nat)
    (page : Option PageH) : Option Uid :=
  if cdpBackendNodeId = 0 then none
  else
    let snapshots : List TextSnapshot := match page with
      | some p =>
        match lookupA st.mcpPages p with
        | some mp => match mp.textSnapshot with | some s => [s] | none => []
        | none => []
      | none => (st.mcpPages.map fun e => e.2.textSnapshot).reduceOption
    if snapshots.isEmpty then none
    else resolveCdpElementIdIn snapshots cdpBackendNodeId

structure DevToolsDataM where
  cdpBackendNodeId : Option Nat := none

/-- `createTextSnapshot(verbose, devtoolsData, targetPage)`.  External
inputs: `rootNode` is the driver's accessibility capture (`none` → no-op,
the page record keeps its previous snapshot) and `externalDevtoolsData` is
what `getDevToolsData()` would return when `devtoolsData` is absent. -/
def createTextSnapshot (st : McpState) (verbose : Bool)
    (devtoolsData : Option DevToolsDataM) (targetPage : Option PageH)
    (rootNode : Option SAXNode) (externalDevtoolsData : DevToolsDataM) :
    Except McpError Unit × McpState :=
  match (match targetPage with
         | some p => Except.ok p
         | none => getSelectedPage st) with
  | .error e => (.error e, st)
  | .ok page =>
    match lookupA st.mcpPages page with
    | none => (.error .noMcpPage, st)
    | some mcpPage =>
      match rootNode with
      | none => (.ok (), st)
      | some root =>
        let sid := st.nextSnapshotId
        let cap := captureSnapshot mcpPage.uniqueBackendNodeIdToMcpId sid root
        let data := devtoolsData.getD externalDevtoolsData
        let withSel : Bool := match data.cdpBackendNodeId with
          | some bid => decide (bid ≠ 0)
          | none => false
        let st1 : McpState := { st with nextSnapshotId := sid + 1 }
        let snap : TextSnapshot :=
          { root := cap.root, snapshotId := sid, idToNode := cap.idToNode,
            hasSelectedElement := withSel,
            selectedElementUid := none, verbose := verbose }
        let st2 : McpState := { st1 with
          mcpPages := setA st1.mcpPages page
            { mcpPage with
                textSnapshot := some snap
                uniqueBackendNodeIdToMcpId := cap.sticky } }
        if withSel then
          let uidres := resolveCdpElementId st2 (data.cdpBackendNodeId.getD 0) (some page)
          (.ok (), { st2 with
            mcpPages := setA st2.mcpPages page
              { mcpPage with
                  textSnapshot := some { snap with selectedElementUid := uidres }
                  uniqueBackendNodeIdToMcpId := cap.sticky } })
        else (.ok (), st2)

end Mcp
